import Mathlib

/-!
# Interactive Xylophone — verification of the spec against the source

Shallow embedding of the browser xylophone application
(`audio-engine.js`, `xylophone.js`, `controls.js`) in Lean 4.

Modelling conventions:
* JS numbers are modelled as rationals (`ℚ`); all the quantities the
  properties talk about (timestamps in ms, delays, envelope breakpoints,
  volume levels) are exactly representable.
* JSON values are modelled by the inductive `JVal`; `JSON.parse` of an
  arbitrary input string is modelled by an `Option JVal` argument
  (`none` = the string does not parse).
* DOM manipulation, `console` logging and CSS class toggling are pure
  side channels with no effect on the module state and are elided.
* `async`/`await` control flow is modelled by its synchronous state
  transitions plus, for playback timing, an explicit schedule function
  (`playScheduleAux`) that computes, for each recorded event, the
  device-clock time at which it is triggered.
-/

/-- JSON values, as produced by `JSON.parse`.  Object fields keep their
textual names and their order. -/
inductive JVal where
  | jnull : JVal
  | jbool : Bool → JVal
  | num : ℚ → JVal
  | str : String → JVal
  | arr : List JVal → JVal
  | obj : List (String × JVal) → JVal

/-- JS property access `o.k` on a parsed JSON object: the value of the
field named `k`, or `none` (JS `undefined`) when absent. -/
def jsGetField (fields : List (String × JVal)) (k : String) : Option JVal :=
  match fields with
  | [] => none
  | (k', v) :: rest => if k' = k then some v else jsGetField rest k

/-- One recorded note: `{noteIndex, delay}` as pushed by
`Controls.recordNote` (controls.js:249-252). -/
structure RecNote where
  noteIndex : ℚ
  delay : ℚ
deriving DecidableEq, Repr

/-- The recorder-relevant state of the `Controls` singleton
(controls.js:24-28). -/
structure ControlsState where
  isRecording : Bool
  isPlaying : Bool
  recordedSequence : List RecNote
  recordingStartTime : ℚ
  maxRecordingLength : ℕ
deriving DecidableEq, Repr

/-- The `Controls` constructor state (controls.js:24-28):
`isRecording = false`, `isPlaying = false`, empty sequence,
`maxRecordingLength = 100`. -/
def initialControls : ControlsState :=
  { isRecording := false
    isPlaying := false
    recordedSequence := []
    recordingStartTime := 0
    maxRecordingLength := 100 }

/-- `Controls.startRecording` (controls.js:175-196).  `now` is the value
of `Date.now()` at the call. -/
def startRecording (now : ℚ) (st : ControlsState) : ControlsState :=
  if st.isPlaying then st
  else
    { st with
      isRecording := true
      recordedSequence := []
      recordingStartTime := now }

/-- `Controls.stopRecording` (controls.js:201-227). -/
def stopRecording (st : ControlsState) : ControlsState :=
  if !st.isRecording then st
  else { st with isRecording := false }

/-- `Controls.recordNote` (controls.js:233-256): ignore the event unless
recording; at the length cap, warn and auto-stop without pushing;
otherwise push `{noteIndex, delay = timestamp - recordingStartTime}`. -/
def recordNote (noteIndex timestamp : ℚ) (st : ControlsState) : ControlsState :=
  if !st.isRecording then st
  else if st.maxRecordingLength ≤ st.recordedSequence.length then
    stopRecording st
  else
    { st with
      recordedSequence :=
        st.recordedSequence ++ [⟨noteIndex, timestamp - st.recordingStartTime⟩] }

/-- A burst of `recordNote` calls, in order: each list entry is the
`(noteIndex, timestamp)` of one `notePlayed` event. -/
def recordMany (events : List (ℚ × ℚ)) (st : ControlsState) : ControlsState :=
  match events with
  | [] => st
  | (i, t) :: rest => recordMany rest (recordNote i t st)

/-- The synchronous part of `Controls.playRecording` (controls.js:261-287):
rejected when the sequence is empty or playback is already running,
otherwise `isPlaying` is set before the asynchronous playback starts.
Note that the guards never consult `isRecording`. -/
def playRecording (st : ControlsState) : ControlsState :=
  if st.recordedSequence.length = 0 then st
  else if st.isPlaying then st
  else { st with isPlaying := true }

/-- `Controls.stopPlayback` (controls.js:333-359). -/
def stopPlayback (st : ControlsState) : ControlsState :=
  if !st.isPlaying then st
  else { st with isPlaying := false }

/-- `Controls.clearRecording` (controls.js:364-377): when playback is
running it is stopped first, then the sequence is discarded. -/
def clearRecording (st : ControlsState) : ControlsState :=
  let st' := if st.isPlaying then stopPlayback st else st
  { st' with recordedSequence := [] }

/-- `Controls.setMaxRecordingLength` (controls.js:458-464). -/
def setMaxRecordingLength (maxLength : ℕ) (st : ControlsState) : ControlsState :=
  if 0 < maxLength ∧ maxLength ≤ 500 then { st with maxRecordingLength := maxLength }
  else st

/-- The JSON value serialized for one recorded note by
`JSON.stringify` in `Controls.exportSequence`: field names and field
order are those of the object literal pushed in `recordNote`. -/
def recToJVal (r : RecNote) : JVal :=
  .obj [("noteIndex", .num r.noteIndex), ("delay", .num r.delay)]

/-- `Controls.exportSequence` (controls.js:470-472), modelled as the JSON
value its output string denotes. -/
def exportSequence (st : ControlsState) : JVal :=
  .arr (st.recordedSequence.map recToJVal)

/-- Validation-and-extraction of one element by the loop in
`Controls.importSequence` (controls.js:489-493): the element must have
`noteIndex` and `delay` fields of JS type `number` (any numeric value;
the sign is never inspected). -/
def toRecord (v : JVal) : Option RecNote :=
  match v with
  | .obj fields =>
    match jsGetField fields "noteIndex", jsGetField fields "delay" with
    | some (.num i), some (.num d) => some ⟨i, d⟩
    | _, _ => none
  | _ => none

/-- Validation of every element of the parsed array, in order; `none` as
soon as any element is malformed. -/
def toRecords (l : List JVal) : Option (List RecNote) :=
  match l with
  | [] => some []
  | v :: rest =>
    match toRecord v, toRecords rest with
    | some r, some rs => some (r :: rs)
    | _, _ => none

/-- `Controls.importSequence` (controls.js:479-511).  The argument is the
parse result of the input string (`none` = `JSON.parse` threw).  The
parsed value must be an array whose every element validates; only then is
`recordedSequence` assigned, and the function returns the success flag. -/
def importSequence (inp : Option JVal) (st : ControlsState) : Bool × ControlsState :=
  match inp with
  | none => (false, st)
  | some (.arr l) =>
    match toRecords l with
    | some recs => (true, { st with recordedSequence := recs })
    | none => (false, st)
  | some _ => (false, st)

/-- `Controls.playSequenceWithTiming` (controls.js:303-328), as the list
of `(fire-time, noteIndex)` pairs it produces: `startTime` is `Date.now()`
at loop entry and `cur` the device clock when the current iteration
starts.  An iteration computes `waitTime = (startTime + delay) - cur`,
sleeps only when `waitTime > 0`, and then triggers the note. -/
def playScheduleAux (startTime : ℚ) (seq : List RecNote) (cur : ℚ) :
    List (ℚ × ℚ) :=
  match seq with
  | [] => []
  | n :: rest =>
    let target := startTime + n.delay
    let fire := if target - cur > 0 then target else cur
    (fire, n.noteIndex) :: playScheduleAux startTime rest fire

/-- The full playback schedule of a sequence begun at `startTime`. -/
def playSchedule (seq : List RecNote) (startTime : ℚ) : List (ℚ × ℚ) :=
  playScheduleAux startTime seq startTime

/-! ## Audio engine (`audio-engine.js`) -/

/-- One call scheduling the per-voice gain param
(`setValueAtTime` / `linearRampToValueAtTime`), with the target value and
the absolute audio-clock time. -/
inductive GainEvent where
  | setValue : ℚ → ℚ → GainEvent
  | linearRamp : ℚ → ℚ → GainEvent
deriving DecidableEq, Repr

/-- The declarative schedule one `AudioEngine.playNote` call programs for
its voice: the ordered gain automation calls, the oscillator start time
and the oscillator stop time. -/
structure VoiceSchedule where
  gainEvents : List GainEvent
  startTime : ℚ
  stopTime : ℚ
deriving DecidableEq, Repr

/-- The ADSR envelope constants of `AudioEngine` (audio-engine.js:15-20):
attack 5 ms, decay 100 ms, sustain 0.3, release 1.2 s. -/
def envAttack : ℚ := mkRat 5 1000
def envDecay : ℚ := mkRat 1 10
def envSustain : ℚ := mkRat 3 10
def envRelease : ℚ := mkRat 12 10

/-- `AudioEngine.defaultVolume` (audio-engine.js:24). -/
def defaultVolume : ℚ := mkRat 7 10

/-- The `AudioEngine` state: the initialization flag and the master gain
level.  `setTargetAtTime`'s 10 ms exponential smoothing (audio-engine.js:155)
is abstracted to the value it converges to, which is also the value the
gain param settles at and reports. -/
structure EngineState where
  isInitialized : Bool
  volume : ℚ
deriving DecidableEq, Repr

/-- The engine right after a successful `initialize()`
(audio-engine.js:32-66): master gain at `defaultVolume`. -/
def initializedEngine : EngineState :=
  { isInitialized := true, volume := defaultVolume }

/-- `AudioEngine.playNote` (audio-engine.js:75-138): fails (returns
`none`, i.e. `false`) when not initialized; otherwise schedules the gain
breakpoints `0 @ now`, ramp to `1.0 @ now+attack`, ramp to
`sustain @ now+attack+decay`, `sustain @ now+duration`, ramp to
`0 @ now+duration+release`, and stops the oscillator at
`now+duration+release`. -/
def enginePlayNote (st : EngineState) (_frequency duration now : ℚ) :
    Option VoiceSchedule :=
  if !st.isInitialized then none
  else
    let attackEnd := now + envAttack
    let decayEnd := attackEnd + envDecay
    let releaseStart := now + duration
    let releaseEnd := releaseStart + envRelease
    some
      { gainEvents :=
          [ .setValue 0 now
          , .linearRamp 1 attackEnd
          , .linearRamp envSustain decayEnd
          , .setValue envSustain releaseStart
          , .linearRamp 0 releaseEnd ]
        startTime := now
        stopTime := releaseEnd }

/-- `AudioEngine.setVolume` (audio-engine.js:144-156): no-op when not
initialized; otherwise the volume is clamped to `[0, 1]` and the master
gain is smoothly driven to the clamped level. -/
def engineSetVolume (st : EngineState) (volume : ℚ) : EngineState :=
  if !st.isInitialized then st
  else { st with volume := max 0 (min 1 volume) }

/-- `AudioEngine.getVolume` (audio-engine.js:162-167): `defaultVolume`
when not initialized, else the master gain level. -/
def engineGetVolume (st : EngineState) : ℚ :=
  if !st.isInitialized then defaultVolume
  else st.volume

/-! ## Xylophone (`xylophone.js`) -/

/-- The fixed note table (xylophone.js:13-25): 11 `(name, frequency)`
pairs, C major from C4 to F5. -/
def xyloNotes : List (String × ℚ) :=
  [ ("C4", mkRat 26163 100)
  , ("D4", mkRat 29366 100)
  , ("E4", mkRat 32963 100)
  , ("F4", mkRat 34923 100)
  , ("G4", mkRat 39200 100)
  , ("A4", mkRat 44000 100)
  , ("B4", mkRat 49388 100)
  , ("C5", mkRat 52325 100)
  , ("D5", mkRat 58733 100)
  , ("E5", mkRat 65925 100)
  , ("F5", mkRat 69846 100) ]

/-- JS array indexing `l[q]` with an arbitrary numeric index: an element
only when `q` is a whole number within bounds, JS `undefined` (`none`)
otherwise — in particular for every fractional index. -/
def jsIndex {α : Type} (l : List α) (q : ℚ) : Option α :=
  if q.den = 1 ∧ 0 ≤ q.num then l.get? q.num.toNat else none

/-- The xylophone state (xylophone.js:42-49): the active-note set keyed
by note index, the polyphony cap, the note duration and (for the audio
engine collaborator) the engine state. -/
structure XyloState where
  activeNotes : Finset ℚ
  maxPolyphony : ℕ
  noteDuration : ℚ
  engine : EngineState
deriving DecidableEq

/-- The xylophone constructor state with an initialized engine:
no active notes, polyphony cap 20, note duration 2 s. -/
def initialXylo : XyloState :=
  { activeNotes := ∅
    maxPolyphony := 20
    noteDuration := 2
    engine := initializedEngine }

/-- The outcome of a JS call that may throw: `ok r` is a normal return
of `r`, `raised` an uncaught exception. -/
inductive JsOutcome (α : Type) where
  | ok : α → JsOutcome α
  | raised : JsOutcome α
deriving DecidableEq, Repr

/-- `Xylophone.playNote` (xylophone.js:57-89).  The guard is the bare
range check `noteIndex < 0 || noteIndex >= this.notes.length`; a
fractional in-range index passes it, `this.notes[noteIndex]` is then
`undefined` and reading `.frequency` throws a `TypeError`
(uncaught: `raised`).  On an admitted index the engine plays the note and,
on success, the index is added to the active set. -/
def xyloPlayNote (noteIndex : ℚ) (st : XyloState) : JsOutcome Bool × XyloState :=
  if noteIndex < 0 ∨ (xyloNotes.length : ℚ) ≤ noteIndex then (.ok false, st)
  else if st.maxPolyphony ≤ st.activeNotes.card then (.ok false, st)
  else
    match jsIndex xyloNotes noteIndex with
    | none => (.raised, st)
    | some note =>
      match enginePlayNote st.engine note.2 st.noteDuration 0 with
      | some _ => (.ok true, { st with activeNotes := insert noteIndex st.activeNotes })
      | none => (.ok false, st)

/-- `Xylophone.isValidNoteIndex` (xylophone.js:245-249):
`Number.isInteger(noteIndex) && noteIndex >= 0 && noteIndex < 11`. -/
def isValidNoteIndex (noteIndex : ℚ) : Bool :=
  noteIndex.den = 1 && 0 ≤ noteIndex && noteIndex < (xyloNotes.length : ℚ)

/-! ## Helper lemmas -/

/-- A burst of `recordNote` calls that fits under the cap appends the
events, with delays measured from `recordingStartTime`, and changes
nothing else. -/
lemma recordMany_append (events : List (ℚ × ℚ)) (st : ControlsState)
    (hrec : st.isRecording = true)
    (hlen : st.recordedSequence.length + events.length ≤ st.maxRecordingLength) :
    recordMany events st =
      { st with
        recordedSequence :=
          st.recordedSequence ++
            events.map (fun e => ⟨e.1, e.2 - st.recordingStartTime⟩) } := by
  induction events generalizing st with
  | nil => simp [recordMany]
  | cons e rest ih =>
    obtain ⟨i, t⟩ := e
    have hlt : st.recordedSequence.length < st.maxRecordingLength := by
      simp at hlen; omega
    have hstep : recordNote i t st =
        { st with
          recordedSequence :=
            st.recordedSequence ++ [⟨i, t - st.recordingStartTime⟩] } := by
      simp [recordNote, hrec, Nat.not_le.mpr hlt]
    rw [recordMany, hstep, ih]
    · simp
    · simp [hrec]
    · simp at hlen ⊢; omega

/-- A single malformed element makes the whole array invalid. -/
lemma toRecords_eq_none_of_mem {l : List JVal} {e : JVal}
    (hmem : e ∈ l) (hbad : toRecord e = none) : toRecords l = none := by
  induction l with
  | nil => cases hmem
  | cons v rest ih =>
    rcases List.mem_cons.mp hmem with h | h
    · subst h; simp [toRecords, hbad]
    · cases hv : toRecord v <;> simp [toRecords, hv, ih h]

/-- Parsing back one exported record recovers it. -/
lemma toRecord_recToJVal (r : RecNote) : toRecord (recToJVal r) = some r := by
  simp [recToJVal, toRecord, jsGetField]

/-- Parsing back an exported record list recovers it. -/
lemma toRecords_map_recToJVal (l : List RecNote) :
    toRecords (l.map recToJVal) = some l := by
  induction l with
  | nil => rfl
  | cons r rest ih => simp [toRecords, toRecord_recToJVal, ih]

/-! ## Claims -/

/-- A recorder on which recording was started at time 0 and one note was
recorded: a Recording state with a non-empty sequence. -/
def recordingWithNote : ControlsState :=
  recordNote 0 0 (startRecording 0 initialControls)

/-- **C1, counterexample.**  Start recording at time 0, record one note:
the recorder is Recording with a non-empty sequence.  `playRecording`
then starts playback (`isPlaying` becomes `true`) — it is not a no-op. -/
theorem playRecording_while_recording_starts_playback_cex :
    recordingWithNote.isRecording = true ∧
    recordingWithNote.recordedSequence ≠ [] ∧
    (playRecording recordingWithNote).isPlaying = true := by
  decide

/-- **C1 (amended).**  `playRecording` only guards against an empty
sequence and against playback already running; it never consults
`isRecording`.  From a Recording state with a non-empty sequence and no
playback running, `play()` therefore starts playback: `isPlaying` becomes
`true`, while `isRecording` and the sequence are left as they were. -/
theorem playRecording_while_recording_starts_playback (st : ControlsState)
    (hrec : st.isRecording = true) (hne : st.recordedSequence ≠ [])
    (hnp : st.isPlaying = false) :
    playRecording st = { st with isPlaying := true } ∧
    (playRecording st).isRecording = true ∧
    (playRecording st).recordedSequence = st.recordedSequence := by
  have hlen : st.recordedSequence.length ≠ 0 := by
    simpa [List.length_eq_zero] using hne
  have h : playRecording st = { st with isPlaying := true } := by
    simp [playRecording, hlen, hnp]
  exact ⟨h, by rw [h]; exact hrec, by rw [h]⟩

/-- **C1, witness.** -/
theorem playRecording_while_recording_starts_playback_wit :
    playRecording recordingWithNote =
      { recordingWithNote with isPlaying := true } ∧
    (playRecording recordingWithNote).isRecording = true ∧
    (playRecording recordingWithNote).recordedSequence =
      recordingWithNote.recordedSequence :=
  playRecording_while_recording_starts_playback recordingWithNote
    (by decide) (by decide) (by decide)

/-- A recorder configured with `setMaxRecordingLength(2)` on which
recording has just been started at time 0. -/
def cappedRecorder : ControlsState :=
  startRecording 0 (setMaxRecordingLength 2 initialControls)

/-- `cappedRecorder` after recording exactly `maxRecordingLength = 2`
events. -/
def cappedRecorderFull : ControlsState :=
  recordMany [(0, 0), (1, 5)] cappedRecorder

/-- **C2, counterexample.**  With `setMaxRecordingLength(2)`, recording
exactly 2 events leaves the recorder still Recording
(`isRecording = true`), with the sequence at the maximum length — the
auto-stop has not fired, contradicting the claimed automatic transition
to Idle upon recording exactly `maxRecordingLength` events. -/
theorem maxRecording_autostop_cex :
    cappedRecorderFull.isRecording = true ∧
    cappedRecorderFull.recordedSequence.length =
      cappedRecorderFull.maxRecordingLength := by
  decide

/-- **C2 (amended).**  Recording exactly `maxRecordingLength` events from
an empty sequence retains every event, including the one that reaches the
maximum, but leaves the recorder still Recording.  The auto-stop to Idle
fires on the *next* `recordNote` call, whose event is dropped, and any
further `recordNote` call before a new `startRecording` has no effect at
all. -/
theorem maxRecording_autostop (st : ControlsState) (events : List (ℚ × ℚ))
    (hrec : st.isRecording = true) (hempty : st.recordedSequence = [])
    (hfull : events.length = st.maxRecordingLength) :
    (recordMany events st).isRecording = true ∧
    (recordMany events st).recordedSequence =
      events.map (fun e => ⟨e.1, e.2 - st.recordingStartTime⟩) ∧
    (∀ i t, recordNote i t (recordMany events st) =
      { recordMany events st with isRecording := false }) ∧
    (∀ i t i' t', recordNote i' t' (recordNote i t (recordMany events st)) =
      recordNote i t (recordMany events st)) := by
  have hmany : recordMany events st =
      { st with
        recordedSequence :=
          st.recordedSequence ++
            events.map (fun e => ⟨e.1, e.2 - st.recordingStartTime⟩) } :=
    recordMany_append events st hrec (by simp [hempty, hfull])
  have hseq : (recordMany events st).recordedSequence =
      events.map (fun e => ⟨e.1, e.2 - st.recordingStartTime⟩) := by
    rw [hmany]; simp [hempty]
  have hrec' : (recordMany events st).isRecording = true := by
    rw [hmany]; simpa using hrec
  have hcap : (recordMany events st).maxRecordingLength ≤
      (recordMany events st).recordedSequence.length := by
    rw [hseq, hmany]; simp [hfull]
  have hstop : ∀ i t : ℚ, recordNote i t (recordMany events st) =
      { recordMany events st with isRecording := false } := by
    intro i t
    simp [recordNote, hrec', hcap, stopRecording]
  refine ⟨hrec', hseq, hstop, ?_⟩
  intro i t i' t'
  rw [hstop i t]
  simp [recordNote]

/-- **C2, witness.** -/
theorem maxRecording_autostop_wit :
    cappedRecorderFull.isRecording = true ∧
    cappedRecorderFull.recordedSequence =
      [(0, 0), (1, 5)].map
        (fun e => (⟨e.1, e.2 - cappedRecorder.recordingStartTime⟩ : RecNote)) ∧
    (∀ i t, recordNote i t cappedRecorderFull =
      { cappedRecorderFull with isRecording := false }) ∧
    (∀ i t i' t', recordNote i' t' (recordNote i t cappedRecorderFull) =
      recordNote i t cappedRecorderFull) :=
  maxRecording_autostop cappedRecorder [(0, 0), (1, 5)]
    (by decide) (by decide) (by decide)

/-- **C3, counterexample.**  `isValidNoteIndex 1.5` is `false`
(1.5 is not an integer), yet `playNote(1.5)` is not rejected with a
failure return: the bare range guard admits it, `notes[1.5]` is
`undefined`, and reading `.frequency` raises a `TypeError`. -/
theorem playNote_invalid_index_cex :
    isValidNoteIndex (mkRat 3 2) = false ∧
    xyloPlayNote (mkRat 3 2) initialXylo = (.raised, initialXylo) := by
  refine ⟨by decide, by decide⟩

/-- **C3 (amended).**  `isValidNoteIndex i` is `true` iff `i` is an
integer in `[0, 10]`.  `playNote` itself, however, only checks the range
`0 ≤ i < 11`: an out-of-range index is rejected, returning `false`
without raising and without touching the active-note set or any other
state, but a *non-integer* index inside the range (such as 1.5) that
passes the polyphony gate is not rejected — it raises a `TypeError`
(with the active-note set likewise untouched). -/
theorem isValidNoteIndex_iff_and_playNote_range_only (i : ℚ) (st : XyloState) :
    (isValidNoteIndex i = true ↔ ∃ n : ℤ, i = (n : ℚ) ∧ 0 ≤ n ∧ n ≤ 10) ∧
    ((i < 0 ∨ 11 ≤ i) → xyloPlayNote i st = (.ok false, st)) ∧
    ((0 ≤ i ∧ i < 11 ∧ i.den ≠ 1 ∧ st.activeNotes.card < st.maxPolyphony) →
      xyloPlayNote i st = (.raised, st)) := by
  have hlen : ((xyloNotes.length : ℚ)) = 11 := by decide
  refine ⟨?_, ?_, ?_⟩
  · constructor
    · intro h
      simp only [isValidNoteIndex, hlen, Bool.and_eq_true, decide_eq_true_eq] at h
      obtain ⟨⟨hden, hnonneg⟩, hlt⟩ := h
      refine ⟨i.num, ?_, ?_, ?_⟩
      · exact_mod_cast ((Rat.den_eq_one_iff i).mp hden).symm
      · have : (0 : ℚ) ≤ i.num := by
          rw [(Rat.den_eq_one_iff i).mp hden]; exact hnonneg
        exact_mod_cast this
      · have hq : (i.num : ℚ) < 11 := by
          rw [(Rat.den_eq_one_iff i).mp hden]; exact hlt
        have : i.num < 11 := by exact_mod_cast hq
        omega
    · rintro ⟨n, rfl, hn0, hn10⟩
      simp only [isValidNoteIndex, hlen, Bool.and_eq_true, decide_eq_true_eq]
      refine ⟨⟨Rat.den_intCast n, by exact_mod_cast hn0⟩, ?_⟩
      have : n < 11 := by omega
      exact_mod_cast this
  · intro h
    have : i < 0 ∨ (xyloNotes.length : ℚ) ≤ i := by rw [hlen]; exact h
    simp [xyloPlayNote, this]
  · rintro ⟨h0, h11, hden, hcard⟩
    have hg : ¬(i < 0 ∨ (xyloNotes.length : ℚ) ≤ i) := by
      rw [hlen]; push_neg; exact ⟨h0, h11⟩
    have hidx : jsIndex xyloNotes i = none := by
      simp [jsIndex, hden]
    simp [xyloPlayNote, hg, Nat.not_le.mpr hcard, hidx]

/-- **C3, witness.** -/
theorem isValidNoteIndex_iff_and_playNote_range_only_wit :
    xyloPlayNote (mkRat 3 2) initialXylo = (.raised, initialXylo) ∧
    xyloPlayNote (-1) initialXylo = (.ok false, initialXylo) :=
  ⟨(isValidNoteIndex_iff_and_playNote_range_only (mkRat 3 2) initialXylo).2.2
      ⟨by decide, by decide, by decide, by decide⟩,
   (isValidNoteIndex_iff_and_playNote_range_only (-1) initialXylo).2.1
      (Or.inl (by decide))⟩

/-- A recorder in the Playing state with a non-empty sequence: one
record imported, then `playRecording` invoked. -/
def playingRecorder : ControlsState :=
  playRecording (importSequence (some (.arr [recToJVal ⟨2, 5⟩])) initialControls).2

/-- **C4, counterexample.**  From a Playing state with a non-empty
sequence, `clearRecording` is not rejected: it stops playback
(`isPlaying` becomes `false`) and discards the sequence. -/
theorem clear_while_playing_cex :
    playingRecorder.isPlaying = true ∧
    playingRecorder.recordedSequence ≠ [] ∧
    (clearRecording playingRecorder).isPlaying = false ∧
    (clearRecording playingRecorder).recordedSequence = [] := by
  decide

/-- **C4 (amended).**  `clearRecording` while playback is in progress is
accepted, not rejected: it first stops playback (the state leaves
Playing) and then discards the recorded sequence. -/
theorem clear_while_playing_stops_and_discards (st : ControlsState)
    (hp : st.isPlaying = true) :
    clearRecording st = { st with isPlaying := false, recordedSequence := [] } := by
  simp [clearRecording, stopPlayback, hp]

/-- **C4, witness.** -/
theorem clear_while_playing_stops_and_discards_wit :
    clearRecording playingRecorder =
      { playingRecorder with isPlaying := false, recordedSequence := [] } :=
  clear_while_playing_stops_and_discards playingRecorder (by decide)

/-- **C5.**  `importSequence` is all-or-nothing: either it returns `true`
and the stored sequence is replaced wholesale by the fully validated
parse of the input (every element an object with numeric `noteIndex` and
numeric `delay`), or it returns `false` and the whole state — the stored
sequence included — is exactly as before; moreover a single malformed
element anywhere in the parsed array forces the rejecting branch, so no
partial application is possible. -/
theorem importSequence_atomic (inp : Option JVal) (st : ControlsState) :
    (((importSequence inp st).1 = true ∧
        ∃ l recs, inp = some (.arr l) ∧ toRecords l = some recs ∧
          (importSequence inp st).2 = { st with recordedSequence := recs }) ∨
      ((importSequence inp st).1 = false ∧ (importSequence inp st).2 = st)) ∧
    (∀ l e, inp = some (.arr l) → e ∈ l → toRecord e = none →
      importSequence inp st = (false, st)) := by
  constructor
  · match inp with
    | none => exact Or.inr ⟨rfl, rfl⟩
    | some (.arr l) =>
      cases hrecs : toRecords l with
      | none => exact Or.inr (by simp [importSequence, hrecs])
      | some recs =>
        exact Or.inl ⟨by simp [importSequence, hrecs], l, recs, rfl, hrecs,
          by simp [importSequence, hrecs]⟩
    | some .jnull => exact Or.inr ⟨rfl, rfl⟩
    | some (.jbool b) => exact Or.inr ⟨rfl, rfl⟩
    | some (.num q) => exact Or.inr ⟨rfl, rfl⟩
    | some (.str s) => exact Or.inr ⟨rfl, rfl⟩
    | some (.obj fields) => exact Or.inr ⟨rfl, rfl⟩
  · rintro l e rfl hmem hbad
    simp [importSequence, toRecords_eq_none_of_mem hmem hbad]

/-- **C5, witness.**  An array with one well-formed record and one
malformed element (`null`) is rejected whole, leaving the fresh recorder
untouched. -/
theorem importSequence_atomic_wit :
    importSequence (some (.arr [recToJVal ⟨2, 5⟩, .jnull])) initialControls =
      (false, initialControls) :=
  (importSequence_atomic (some (.arr [recToJVal ⟨2, 5⟩, .jnull]))
      initialControls).2
    [recToJVal ⟨2, 5⟩, .jnull] .jnull rfl (by simp) rfl

/-- **C6.**  Round-trip: exporting any recorder's sequence and importing
the result into a fresh recorder succeeds and reproduces the identical
ordered record list (the export writes each record's fields as
`noteIndex` then `delay`, exactly the names and order `recordNote` uses,
and the import reads them back). -/
theorem export_import_round_trip (st : ControlsState) :
    importSequence (some (exportSequence st)) initialControls =
      (true, { initialControls with recordedSequence := st.recordedSequence }) := by
  simp [exportSequence, importSequence, toRecords_map_recToJVal]

/-- **C7.**  On an initialized engine, `playNote(frequency, d)` at
audio-clock time `now` schedules the per-voice gain with exactly the
breakpoints `0 @ now`, linear ramp to `1.0 @ now + attack`, linear ramp
to `sustain @ now + attack + decay`, `sustain` re-asserted `@ now + d`,
linear ramp to `0 @ now + d + release`, and stops the oscillator exactly
at `now + d + release`; with the default envelope and `d = 2` that stop
time is `now + 3.2` seconds. -/
theorem playNote_envelope_schedule (st : EngineState) (frequency d now : ℚ)
    (hinit : st.isInitialized = true) :
    enginePlayNote st frequency d now =
      some
        { gainEvents :=
            [ .setValue 0 now
            , .linearRamp 1 (now + envAttack)
            , .linearRamp envSustain (now + envAttack + envDecay)
            , .setValue envSustain (now + d)
            , .linearRamp 0 (now + d + envRelease) ]
          startTime := now
          stopTime := now + d + envRelease } ∧
    (d = 2 → now + d + envRelease = now + mkRat 16 5) := by
  constructor
  · simp [enginePlayNote, hinit, add_assoc]
  · rintro rfl
    have : (2 : ℚ) + envRelease = mkRat 16 5 := by
      rw [envRelease, Rat.mkRat_eq_div, Rat.mkRat_eq_div]; norm_num
    rw [add_assoc, this]

/-- **C7, witness.**  Triggering C4 (261.63 Hz) for 2 s at clock time 0
on a freshly initialized engine. -/
theorem playNote_envelope_schedule_wit :
    (enginePlayNote initializedEngine (mkRat 26163 100) 2 0 =
      some
        { gainEvents :=
            [ .setValue 0 0
            , .linearRamp 1 (0 + envAttack)
            , .linearRamp envSustain (0 + envAttack + envDecay)
            , .setValue envSustain (0 + 2)
            , .linearRamp 0 (0 + 2 + envRelease) ]
          startTime := 0
          stopTime := 0 + 2 + envRelease }) ∧
    ((2 : ℚ) = 2 → (0 : ℚ) + 2 + envRelease = 0 + mkRat 16 5) :=
  playNote_envelope_schedule initializedEngine (mkRat 26163 100) 2 0 rfl

/-- **C8.**  On an initialized engine, `setVolume` clamps its argument
into `[0, 1]` instead of rejecting it, and `getVolume` afterwards reports
exactly the last-set clamped level; in particular `setVolume(1.5)`
followed by `getVolume()` yields `1.0`.  (The 10 ms `setTargetAtTime`
smoothing is modelled by the level it converges to.) -/
theorem setVolume_clamps (st : EngineState) (v : ℚ)
    (hinit : st.isInitialized = true) :
    engineGetVolume (engineSetVolume st v) = max 0 (min 1 v) ∧
    0 ≤ engineGetVolume (engineSetVolume st v) ∧
    engineGetVolume (engineSetVolume st v) ≤ 1 ∧
    engineGetVolume (engineSetVolume st (mkRat 3 2)) = 1 := by
  have hget : ∀ w : ℚ, engineGetVolume (engineSetVolume st w) = max 0 (min 1 w) := by
    intro w
    simp [engineSetVolume, engineGetVolume, hinit]
  refine ⟨hget v, ?_, ?_, ?_⟩
  · rw [hget v]; exact le_max_left 0 _
  · rw [hget v]
    exact max_le (by norm_num) (min_le_left 1 v)
  · rw [hget (mkRat 3 2)]; decide

/-- **C8, witness.** -/
theorem setVolume_clamps_wit :
    engineGetVolume (engineSetVolume initializedEngine (mkRat 3 2)) =
      max 0 (min 1 (mkRat 3 2)) ∧
    0 ≤ engineGetVolume (engineSetVolume initializedEngine (mkRat 3 2)) ∧
    engineGetVolume (engineSetVolume initializedEngine (mkRat 3 2)) ≤ 1 ∧
    engineGetVolume (engineSetVolume initializedEngine (mkRat 3 2)) = 1 :=
  setVolume_clamps initializedEngine (mkRat 3 2) rfl

/-- **C9.**  The active-note set is keyed by note index: if index `q` is
already active, any further `playNote(q)` — successful or not — leaves
the active-note set (and hence its cardinality, the quantity compared
against `maxPolyphony`) unchanged; and in general a `playNote(q)` call
never grows the set beyond `insert q`, so N triggers of the same index
contribute at most one element and the polyphony limit can only be
reached with distinct indices. -/
theorem activeNotes_keyed_by_index (q : ℚ) (st : XyloState)
    (hmem : q ∈ st.activeNotes) :
    (xyloPlayNote q st).2.activeNotes = st.activeNotes ∧
    (xyloPlayNote q st).2.activeNotes.card = st.activeNotes.card ∧
    (∀ st' : XyloState, (xyloPlayNote q st').2.activeNotes ⊆
      insert q st'.activeNotes) := by
  have hcases : ∀ st' : XyloState, (xyloPlayNote q st').2.activeNotes =
      st'.activeNotes ∨
      (xyloPlayNote q st').2.activeNotes = insert q st'.activeNotes := by
    intro st'
    unfold xyloPlayNote
    split
    · exact Or.inl rfl
    · split
      · exact Or.inl rfl
      · split
        · exact Or.inl rfl
        · split
          · exact Or.inr rfl
          · exact Or.inl rfl
  have heq : (xyloPlayNote q st).2.activeNotes = st.activeNotes := by
    rcases hcases st with h | h
    · exact h
    · rw [h]; exact Finset.insert_eq_self.mpr hmem
  refine ⟨heq, by rw [heq], ?_⟩
  intro st'
  rcases hcases st' with h | h
  · rw [h]; exact Finset.subset_insert q _
  · rw [h]

/-- **C9, witness.**  Index 0 already active: a second trigger leaves the
active set untouched. -/
theorem activeNotes_keyed_by_index_wit :
    (xyloPlayNote 0 { initialXylo with activeNotes := {0} }).2.activeNotes =
      ({0} : Finset ℚ) ∧
    (xyloPlayNote 0 { initialXylo with activeNotes := {0} }).2.activeNotes.card =
      ({0} : Finset ℚ).card ∧
    (∀ st' : XyloState, (xyloPlayNote 0 st').2.activeNotes ⊆
      insert 0 st'.activeNotes) :=
  activeNotes_keyed_by_index 0 { initialXylo with activeNotes := {0} }
    (by decide)

/-- The clock value an iteration of `playSequenceWithTiming` fires at is
never before the clock it started with. -/
lemma fireTime_ge (t cur : ℚ) : cur ≤ if t - cur > 0 then t else cur := by
  split
  · linarith
  · exact le_rfl

/-- The first fire time of a schedule suffix is never before the clock it
starts from. -/
lemma playScheduleAux_head_ge (start cur : ℚ) (seq : List RecNote) :
    ∀ b ∈ ((playScheduleAux start seq cur).map Prod.fst).head?, cur ≤ b := by
  cases seq with
  | nil => intro b hb; simp [playScheduleAux] at hb
  | cons m rest =>
    intro b hb
    simp only [playScheduleAux, List.map_cons, List.head?_cons, Option.mem_def,
      Option.some.injEq] at hb
    subst hb
    exact fireTime_ge (start + m.delay) cur

/-- Fire times along a playback schedule are nondecreasing. -/
lemma playScheduleAux_chain (start : ℚ) (seq : List RecNote) :
    ∀ cur : ℚ, List.Chain' (· ≤ ·) ((playScheduleAux start seq cur).map Prod.fst) := by
  induction seq with
  | nil => intro cur; simp [playScheduleAux]
  | cons n rest ih =>
    intro cur
    simp only [playScheduleAux, List.map_cons]
    exact List.chain'_cons'.mpr
      ⟨fun b hb => playScheduleAux_head_ge start _ rest b hb, ih _⟩

/-- **C10.**  Import-time validation only checks that `noteIndex` and
`delay` have JS type `number`, so records with zero or negative delays
are accepted; and during playback an event whose computed wait time
`(startTime + delay) - currentTime` is not strictly positive — which
covers every zero- or negative-delay event, the clock never being before
`startTime` — is triggered immediately at the current clock with no wait,
while list order is preserved and the fire times are nondecreasing. -/
theorem negative_delays_accepted_and_fire_immediately :
    (∀ (i d : ℚ) (st : ControlsState),
      (importSequence
        (some (.arr [.obj [("noteIndex", .num i), ("delay", .num d)]])) st).1
        = true) ∧
    (∀ (start : ℚ) (seq : List RecNote) (cur : ℚ),
      (playScheduleAux start seq cur).map Prod.snd = seq.map RecNote.noteIndex) ∧
    (∀ (start cur : ℚ) (n : RecNote) (rest : List RecNote),
      start + n.delay - cur ≤ 0 →
      playScheduleAux start (n :: rest) cur =
        (cur, n.noteIndex) :: playScheduleAux start rest cur) ∧
    (∀ (start cur : ℚ) (n : RecNote) (rest : List RecNote),
      n.delay ≤ 0 → start ≤ cur →
      playScheduleAux start (n :: rest) cur =
        (cur, n.noteIndex) :: playScheduleAux start rest cur) ∧
    (∀ (start : ℚ) (seq : List RecNote) (cur : ℚ),
      List.Chain' (· ≤ ·) ((playScheduleAux start seq cur).map Prod.fst)) := by
  have himm : ∀ (start cur : ℚ) (n : RecNote) (rest : List RecNote),
      start + n.delay - cur ≤ 0 →
      playScheduleAux start (n :: rest) cur =
        (cur, n.noteIndex) :: playScheduleAux start rest cur := by
    intro start cur n rest h
    have hneg : ¬(start + n.delay - cur > 0) := by linarith
    simp only [playScheduleAux, if_neg hneg]
  refine ⟨?_, ?_, himm, ?_, ?_⟩
  · intro i d st
    simp [importSequence, toRecords, toRecord, jsGetField]
  · intro start seq
    induction seq with
    | nil => intro cur; simp [playScheduleAux]
    | cons n rest ih =>
      intro cur
      simp only [playScheduleAux, List.map_cons, List.cons.injEq]
      exact ⟨trivial, ih _⟩
  · intro start cur n rest hd hsc
    exact himm start cur n rest (by linarith)
  · exact fun start seq cur => playScheduleAux_chain start seq cur

/-- **C10, witness.**  The record `{noteIndex: 2, delay: -5}` imports
successfully, and during playback started at clock 0 it fires immediately
at clock 0. -/
theorem negative_delays_accepted_and_fire_immediately_wit :
    (importSequence
      (some (.arr [.obj [("noteIndex", .num 2), ("delay", .num (-5))]]))
      initialControls).1 = true ∧
    playScheduleAux 0 [⟨2, -5⟩] 0 = (0, 2) :: playScheduleAux 0 [] 0 :=
  ⟨negative_delays_accepted_and_fire_immediately.1 2 (-5) initialControls,
   negative_delays_accepted_and_fire_immediately.2.2.2.1 0 0 ⟨2, -5⟩ []
     (by decide) le_rfl⟩
